import Mathlib

/-!
Verification development for the NovaCal Telegram calendar bot
(`NovaCal-Memory-AI-Telegram.py` and `function.py`).

Python strings are modelled as `List Char` (one entry per code point, which is
what Python's `len`, slicing and concatenation operate on).  Each definition
below is a direct translation of the corresponding piece of Python source; the
doc comments name the translated function or code block.
-/

/- ================= Bounded history store (C1) ================= -/

/-- One persisted chat message (a row of the SQL-backed message log). -/
structure Turn where
  role : List Char
  content : List Char
deriving DecidableEq

/-- The fixed window size used by `WindowedSQLChatMessageHistory.messages`
(the `[-5:]` slice). -/
def K : Nat := 5

/-- `WindowedSQLChatMessageHistory.messages`: `super().messages[-5:]` — the
full persisted log sliced to its last five entries.  Python's `log[-5:]`
equals dropping all but the last `min 5 (length log)` elements. -/
def windowedMessages (log : List Turn) : List Turn :=
  log.drop (log.length - K)

/- ================= Access guard (C2) ================= -/

/-- Observable actions of one run of `handle_message`, in program order.
`denialAttempt` is the `send_message` to the sender's chat (`chat_id`) inside
the first `try`, `alertAttempt` the `send_message` to the developer's chat
inside the second `try`; the `Bool` records whether the transport delivered
it (`false` means the `except` branch ran). -/
inductive BotAction where
  | warnLog
  | denialAttempt (recipient : List Char) (delivered : Bool)
  | errorLog
  | alertAttempt (recipient : List Char) (delivered : Bool)
  | toolCall
  | historyAppend
  | userReply
deriving DecidableEq

/-- Environment of one incoming message: whether each of the two best-effort
sends succeeds, and the (abstract) action trace of the authorized branch of
`handle_message` (steps 2-13, which run only when the guard passes). -/
structure TurnEnv where
  denialOk : Bool
  alertOk : Bool
  agentActions : List BotAction

/-- Actions of the `SECURITY BOUNCER` block of `handle_message` (the
unauthorized branch): warning log, denial send attempt (error-logged on
failure), alert send attempt (error-logged on failure), then `return`. -/
def guardActions (chatId allowedId : List Char) (env : TurnEnv) : List BotAction :=
  [BotAction.warnLog, BotAction.denialAttempt chatId env.denialOk] ++
    (if env.denialOk then [] else [BotAction.errorLog]) ++
    [BotAction.alertAttempt allowedId env.alertOk] ++
    (if env.alertOk then [] else [BotAction.errorLog])

/-- `handle_message`, seen as the trace of actions it performs:
`if str(user_id) != str(TELEGRAM_DEVELOPER_CHAT_ID)` runs the guard block and
returns; otherwise the rest of the handler (modelled abstractly by
`env.agentActions`) runs. -/
def handle_message (allowedId userId chatId : List Char) (env : TurnEnv) :
    List BotAction :=
  if userId ≠ allowedId then guardActions chatId allowedId env
  else env.agentActions

/-- Recognizes a denial-reply attempt in a trace. -/
def isDenialAttempt : BotAction → Bool
  | BotAction.denialAttempt _ _ => true
  | _ => false

/-- Recognizes an alert attempt in a trace. -/
def isAlertAttempt : BotAction → Bool
  | BotAction.alertAttempt _ _ => true
  | _ => false

/-- Recognizes a tool invocation in a trace. -/
def isToolCall : BotAction → Bool
  | BotAction.toolCall => true
  | _ => false

/-- Recognizes a history append in a trace. -/
def isHistoryAppend : BotAction → Bool
  | BotAction.historyAppend => true
  | _ => false

/- ================= Output chunker (C3, C4) ================= -/

/-- `MAX_LENGTH = 4000` — the safety buffer under Telegram's 4096 limit. -/
def MAX_LENGTH : Nat := 4000

/-- The paragraph separator `"\n\n"`. -/
def nn : List Char := ['\n', '\n']

/-- Python `str.strip()` whitespace (the ASCII part; the messages involved
contain no other whitespace code points). -/
def isPySpace (c : Char) : Bool :=
  c = ' ' ∨ c = '\t' ∨ c = '\n' ∨ c = '\r' ∨ c = Char.ofNat 11 ∨ c = Char.ofNat 12

/-- `not s.strip()`: the string is empty or entirely whitespace. -/
def isBlank (s : List Char) : Bool := s.all isPySpace

/-- Prepends a character to the first part of a split result. -/
def consPart (c : Char) : List (List Char) → List (List Char)
  | [] => [[c]]
  | h :: t => (c :: h) :: t

/-- Python `text.split('\n\n')`: greedy left-to-right split on
non-overlapping occurrences of the two-character separator. -/
def splitNN : List Char → List (List Char)
  | [] => [[]]
  | [c] => [[c]]
  | c1 :: c2 :: rest =>
    if c1 = '\n' ∧ c2 = '\n' then [] :: splitNN rest
    else consPart c1 (splitNN (c2 :: rest))

/-- Rejoins split parts with the `"\n\n"` separator (inverse of `splitNN`). -/
def joinNN : List (List Char) → List Char
  | [] => []
  | [p] => p
  | p :: q :: ps => p ++ nn ++ joinNN (q :: ps)

/-- The `for part in parts` packing loop of `handle_message` step 11:
greedily accumulates parts (each with a trailing `"\n\n"`) into
`current_chunks` while the next part keeps it strictly under `MAX_LENGTH`,
flushing non-blank chunks to `message_to_send`, and flushes the final
non-blank buffer after the loop. -/
def packChunks : List (List Char) → List Char → List (List Char) → List (List Char)
  | [], cur, acc => if isBlank cur then acc else acc ++ [cur]
  | p :: ps, cur, acc =>
    if cur.length + p.length + 2 < MAX_LENGTH then
      packChunks ps (cur ++ p ++ nn) acc
    else
      packChunks ps (p ++ nn) (if isBlank cur then acc else acc ++ [cur])

/-- `handle_message` step 11 (message length handling): a text of length at
most `MAX_LENGTH` is sent as a single message; a longer one is split on
`"\n\n"` and repacked by the greedy loop. -/
def chunk (text : List Char) : List (List Char) :=
  if text.length ≤ MAX_LENGTH then [text]
  else packChunks (splitNN text) [] []

/- ================= Result normalization (C9, C10) ================= -/

/-- One element of a structured LLM output list: a plain string part, a dict
part (with or without a `"text"` key), or any other (non-str, non-dict)
value. -/
inductive Fragment where
  | fstr (s : List Char)
  | fdict (text : Option (List Char))
  | fother
deriving DecidableEq

/-- The value found under `response["output"]`: either a string or a list of
fragments. -/
inductive OutVal where
  | vstr (s : List Char)
  | vlist (l : List Fragment)
deriving DecidableEq

/-- Python `len(response["output"])`. -/
def pyLen : OutVal → Nat
  | OutVal.vstr s => s.length
  | OutVal.vlist l => l.length

/-- One iteration of the sanitizing loop: `cleaned_text += part["text"]` for a
dict carrying a `"text"` key, `cleaned_text += part` for a string, and no
change otherwise. -/
def fragAppend (acc : List Char) : Fragment → List Char
  | Fragment.fstr s => acc ++ s
  | Fragment.fdict (some t) => acc ++ t
  | Fragment.fdict none => acc
  | Fragment.fother => acc

/-- The text carried by a textual fragment (`none` for fragments the loop
skips). -/
def textOf : Fragment → Option (List Char)
  | Fragment.fstr s => some s
  | Fragment.fdict (some t) => some t
  | Fragment.fdict none => none
  | Fragment.fother => none

/-- In-order concatenation of a list of strings. -/
def concatAll : List (List Char) → List Char
  | [] => []
  | x :: xs => x ++ concatAll xs

/-- The fixed fallback answer of `handle_message` step 10. -/
def fallbackMsg : List Char :=
  ("Sorry, I am unable to process that scheduling request right now.").toList

/-- `handle_message` step 10: if `"output" in response and len(...) > 0`, keep
a string output as-is and flatten a list output through the sanitizing loop;
otherwise substitute the fallback message.  `none` models an absent
`"output"` key. -/
def normalizeOutput : Option OutVal → List Char
  | none => fallbackMsg
  | some v =>
    if 0 < pyLen v then
      match v with
      | OutVal.vstr s => s
      | OutVal.vlist l => l.foldl fragAppend []
    else fallbackMsg

/- ================= Calendar read tools (function.py: C5-C8) ================= -/

/-- The `start`/`end` sub-object of a Google Calendar event.  Per the API
interface, it exposes either a `dateTime` (full timestamp) or a `date`
(day-only) field; both tools probe `dateTime` first and fall back to
`date`. -/
inductive GTimeField where
  | dateTime (v : List Char)
  | date (v : List Char)
deriving DecidableEq

/-- `e['start'].get('dateTime', e['start'].get('date'))`. -/
def GTimeField.raw : GTimeField → List Char
  | GTimeField.dateTime v => v
  | GTimeField.date v => v

/-- One event item of the API payload, restricted to the fields the two tools
read (`summary` and `id` via `.get` with defaults, `start`/`end` directly). -/
structure GEvent where
  summary : Option (List Char)
  id : Option (List Char)
  start : GTimeField
  end_ : GTimeField
deriving DecidableEq

/-- The parameters of one `service.events().list(...)` call. -/
structure ListReq where
  calendarId : List Char
  q : Option (List Char)
  timeMin : Option (List Char)
  timeMax : Option (List Char)
  maxResults : Nat
  singleEvents : Bool
  orderBy : List Char
deriving DecidableEq

/-- The external Google Calendar backend as both tools see it: the credential
loading / service construction step (`auth`), and the events-list endpoint
(`list`), each returning either a value or a raised-exception message. -/
structure Backend where
  auth : Except (List Char) Unit
  list : ListReq → Except (List Char) (List GEvent)

/-- The items contributed by one `list` call inside a `try`/`except` that
swallows the failure (`continue`): the returned items on success, nothing on
failure. -/
def okItems : Except (List Char) (List GEvent) → List GEvent
  | Except.ok l => l
  | Except.error _ => []

/-- The single-quote character (used by the Python f-strings). -/
def squote : Char := Char.ofNat 39

/-- The shared date/time formatting of both tools: `start_raw[:10]` is the
event date; a `"T"` in `start_raw` means a timed event rendered
`"HH:MM - HH:MM"` via the `[11:16]` slices, otherwise `"All-day"`. -/
def fmtTime (ev : GEvent) : List Char :=
  if 'T' ∈ ev.start.raw then
    (ev.start.raw.drop 11).take 5 ++ (" - ").toList ++ (ev.end_.raw.drop 11).take 5
  else ("All-day").toList

/-- `f"- [{event_date}] '{title}' ({time_str}) | EVENT_ID: {event_id}\n"` in
`get_id_of_schedules`, with the `.get` defaults for title and id. -/
def idLine (ev : GEvent) : List Char :=
  ("- [").toList ++ ev.start.raw.take 10 ++ ("] ").toList ++ [squote] ++
    ev.summary.getD (("Untitled Event").toList) ++ [squote] ++ (" (").toList ++
    fmtTime ev ++ (") | EVENT_ID: ").toList ++
    ev.id.getD (("NO_ID_FOUND").toList) ++ ['\n']

/-- `f"- [{event_date}] {title} ({time_str})\n"` in `get_all_schedules`. -/
def rangeLine (ev : GEvent) : List Char :=
  ("- [").toList ++ ev.start.raw.take 10 ++ ("] ").toList ++
    ev.summary.getD (("Untitled Event").toList) ++ (" (").toList ++
    fmtTime ev ++ (")\n").toList ++ []

/-- `f"No events found matching the keyword: '{keyword}'."` -/
def noMatchMsg (keyword : List Char) : List Char :=
  ("No events found matching the keyword: ").toList ++ [squote] ++ keyword ++
    [squote, '.']

/-- `f"Matching Events Found for '{keyword}':\n"` -/
def idHeader (keyword : List Char) : List Char :=
  ("Matching Events Found for ").toList ++ [squote] ++ keyword ++ [squote] ++
    (":\n").toList

/-- `f"No events scheduled from {start_date} to {end_date}."` -/
def noRangeMsg (start_date end_date : List Char) : List Char :=
  ("No events scheduled from ").toList ++ start_date ++ (" to ").toList ++
    end_date ++ (".").toList

/-- `f"Schedule from {start_date} to {end_date}:\n"` -/
def rangeHeader (start_date end_date : List Char) : List Char :=
  ("Schedule from ").toList ++ start_date ++ (" to ").toList ++ end_date ++
    (":\n").toList

/-- The `list` request issued by `get_id_of_schedules`. -/
def kwReq (keyword : List Char) : ListReq :=
  { calendarId := ("primary").toList
    q := some keyword
    timeMin := none
    timeMax := none
    maxResults := 10
    singleEvents := true
    orderBy := ("startTime").toList }

/-- `get_id_of_schedules(keyword)` from `function.py`: authenticate, issue the
free-text search against the primary calendar, return the no-match sentinel on
an empty result, otherwise the header plus one formatted line per event; any
raised exception is converted to the error string by the outer `except`. -/
def get_id_of_schedules (B : Backend) (keyword : List Char) : List Char :=
  match B.auth with
  | Except.error e => ("Error executing search tool: ").toList ++ e
  | Except.ok _ =>
    match B.list (kwReq keyword) with
    | Except.error e => ("Error executing search tool: ").toList ++ e
    | Except.ok events =>
      if events = [] then noMatchMsg keyword
      else idHeader keyword ++ events.foldl (fun acc ev => acc ++ idLine ev) []

/-- The first target calendar of `get_all_schedules`. -/
def primaryCal : List Char := ("primary").toList

/-- The second target calendar of `get_all_schedules` (the Indonesian holiday
calendar). -/
def holidayCal : List Char :=
  ("id.indonesian#holiday@group.v.calendar.google.com").toList

/-- `target_calendars = ['primary', 'id.indonesian#holiday@...']`. -/
def target_calendars : List (List Char) := [primaryCal, holidayCal]

/-- The `list` request issued by `get_all_schedules` for one calendar:
`timeMin = f"{start_date}T00:00:00+07:00"`,
`timeMax = f"{end_date}T23:59:59+07:00"`, `maxResults = 50`. -/
def rangeReq (cid start_date end_date : List Char) : ListReq :=
  { calendarId := cid
    q := none
    timeMin := some (start_date ++ ("T00:00:00+07:00").toList)
    timeMax := some (end_date ++ ("T23:59:59+07:00").toList)
    maxResults := 50
    singleEvents := true
    orderBy := ("startTime").toList }

/-- The `for calendar_id in target_calendars` aggregation loop of
`get_all_schedules`: extend `all_events` with each calendar's items, silently
skipping a calendar whose call raises. -/
def aggEvents (B : Backend) (start_date end_date : List Char) : List GEvent :=
  target_calendars.foldl
    (fun acc cid => acc ++ okItems (B.list (rangeReq cid start_date end_date))) []

/-- Steps 5-6 of `get_all_schedules`: the no-events sentinel for an empty
aggregate, otherwise the header plus one formatted line per aggregated
event. -/
def get_all_body (start_date end_date : List Char) (evs : List GEvent) :
    List Char :=
  if evs = [] then noRangeMsg start_date end_date
  else rangeHeader start_date end_date ++
    evs.foldl (fun acc ev => acc ++ rangeLine ev) []

/-- `get_all_schedules(start_date, end_date)` from `function.py`:
authenticate, aggregate the two target calendars, and format; an exception
outside the per-calendar `try` is converted to the error string by the outer
`except`. -/
def get_all_schedules (B : Backend) (start_date end_date : List Char) :
    List Char :=
  match B.auth with
  | Except.error e => ("Error executing schedule fetcher: ").toList ++ e
  | Except.ok _ => get_all_body start_date end_date (aggEvents B start_date end_date)

/-- Lexicographic order on raw start values (the chronological order of
RFC 3339 timestamps sharing an offset, with a day-only date sorting at the
start of its day). -/
def strLeB : List Char → List Char → Bool
  | [], _ => true
  | _ :: _, [] => false
  | a :: as, b :: bs => if a < b then true else if a = b then strLeB as bs else false

/-- An event sequence is in ascending order of event start time. -/
def sortedByStartB : List GEvent → Bool
  | [] => true
  | [_] => true
  | a :: b :: rest =>
    strLeB a.start.raw b.start.raw && sortedByStartB (b :: rest)

/-- The events-list API contract: a call never returns more items than its
`maxResults` parameter. -/
def apiCap (B : Backend) : Prop :=
  ∀ req : ListReq, (okItems (B.list req)).length ≤ req.maxResults

/- ================= Concrete test data ================= -/

/-- A 4000-character paragraph (its length equals the transport limit). -/
def para4000 : List Char := List.replicate 4000 'a'

/-- A 3999-character paragraph (just under the transport limit). -/
def para3999 : List Char := List.replicate 3999 'a'

/-- Two limit-length paragraphs separated by a blank line. -/
def c3text : List Char := para4000 ++ nn ++ para4000

/-- An empty first paragraph followed by a long second one. -/
def c4text : List Char := nn ++ para3999

/-- First paragraph of the two-paragraph packing example. -/
def w1 : List Char := List.replicate 2000 'a'

/-- Second paragraph of the two-paragraph packing example. -/
def w2 : List Char := List.replicate 2001 'b'

/-- Two under-limit paragraphs that jointly exceed the limit. -/
def c4wtext : List Char := w1 ++ nn ++ w2

/-- A sample persisted turn. -/
def demoTurn (c : Char) : Turn := { role := ['u'], content := [c] }

/-- A session log holding seven turns. -/
def demoLog : List Turn :=
  [demoTurn '1', demoTurn '2', demoTurn '3', demoTurn '4', demoTurn '5',
   demoTurn '6', demoTurn '7']

/-- The last five turns of `demoLog`. -/
def demoWin : List Turn :=
  [demoTurn '3', demoTurn '4', demoTurn '5', demoTurn '6', demoTurn '7']

/-- Start date of the sample queries. -/
def d1 : List Char := ("2025-01-01").toList

/-- End date of the sample queries. -/
def d2 : List Char := ("2025-01-07").toList

/-- A timed primary-calendar event starting on 2025-01-02. -/
def evLate : GEvent :=
  { summary := some (("Standup").toList)
    id := some (("abc123").toList)
    start := GTimeField.dateTime (("2025-01-02T10:00:00+07:00").toList)
    end_ := GTimeField.dateTime (("2025-01-02T11:00:00+07:00").toList) }

/-- An all-day holiday event on 2025-01-01 (chronologically before
`evLate`). -/
def evEarly : GEvent :=
  { summary := some (("New Year").toList)
    id := none
    start := GTimeField.date (("2025-01-01").toList)
    end_ := GTimeField.date (("2025-01-02").toList) }

/-- A backend whose primary calendar holds the later event and whose holiday
calendar holds the earlier one. -/
def B5 : Backend :=
  { auth := Except.ok ()
    list := fun req =>
      if req.calendarId = primaryCal then Except.ok [evLate]
      else Except.ok [evEarly] }

/-- A backend that fills every list call to its `maxResults` cap. -/
def B50 : Backend :=
  { auth := Except.ok ()
    list := fun req => Except.ok (List.replicate req.maxResults evEarly) }

/-- A backend with no events at all. -/
def B0 : Backend :=
  { auth := Except.ok ()
    list := fun _ => Except.ok [] }

/-- A backend whose primary calendar errors while the holiday calendar
answers. -/
def Bfail : Backend :=
  { auth := Except.ok ()
    list := fun req =>
      if req.calendarId = primaryCal then Except.error (("HttpError 404").toList)
      else Except.ok [evEarly] }

/- ================= Helper lemmas ================= -/

/-- `consPart` never produces the empty list of parts. -/
lemma consPart_ne_nil (c : Char) (l : List (List Char)) : consPart c l ≠ [] := by
  cases l <;> simp [consPart]

/-- `splitNN` never produces the empty list of parts. -/
lemma splitNN_ne_nil (s : List Char) : splitNN s ≠ [] := by
  match s with
  | [] => simp [splitNN]
  | [c] => simp [splitNN]
  | c1 :: c2 :: rest =>
    rw [splitNN]
    by_cases h : c1 = '\n' ∧ c2 = '\n'
    · rw [if_pos h]; simp
    · rw [if_neg h]; exact consPart_ne_nil _ _

/-- Joining after `consPart` prepends the character. -/
lemma joinNN_consPart (c : Char) (l : List (List Char)) (h : l ≠ []) :
    joinNN (consPart c l) = c :: joinNN l := by
  match l with
  | [] => exact absurd rfl h
  | [p] => simp [consPart, joinNN]
  | p :: q :: ps => simp [consPart, joinNN]

/-- `"\n\n".join(text.split("\n\n")) == text`: splitting loses nothing. -/
lemma joinNN_splitNN (s : List Char) : joinNN (splitNN s) = s := by
  match s with
  | [] => simp [splitNN, joinNN]
  | [c] => simp [splitNN, joinNN]
  | c1 :: c2 :: rest =>
    rw [splitNN]
    by_cases h : c1 = '\n' ∧ c2 = '\n'
    · rw [if_pos h]
      obtain ⟨h1, h2⟩ := h
      subst h1; subst h2
      have ih := joinNN_splitNN rest
      obtain ⟨r, rs, hr⟩ : ∃ r rs, splitNN rest = r :: rs := by
        cases hs : splitNN rest with
        | nil => exact absurd hs (splitNN_ne_nil rest)
        | cons r rs => exact ⟨r, rs, rfl⟩
      rw [hr] at ih ⊢
      simp [joinNN, nn, ih]
    · rw [if_neg h]
      have ih := joinNN_splitNN (c2 :: rest)
      rw [joinNN_consPart c1 _ (splitNN_ne_nil _), ih]

/-- Splitting after a separator-free prefix prepends that prefix to the first
part. -/
lemma splitNN_append (a : List Char) (ha : '\n' ∉ a) (s h : List Char)
    (t : List (List Char)) (hs : splitNN s = h :: t) :
    splitNN (a ++ s) = (a ++ h) :: t := by
  match a with
  | [] => simpa using hs
  | c :: a' =>
    have hc : c ≠ '\n' := fun hc => ha (hc ▸ List.mem_cons_self c a')
    have ha' : '\n' ∉ a' := fun hm => ha (List.mem_cons_of_mem c hm)
    have ih := splitNN_append a' ha' s h t hs
    match hrest : a' ++ s with
    | [] =>
      obtain ⟨ha'nil, hsnil⟩ := List.append_eq_nil.mp hrest
      subst ha'nil
      subst hsnil
      simp [splitNN] at hs
      obtain ⟨hh, ht⟩ := hs
      subst hh; subst ht
      simp [splitNN]
    | d :: r =>
      show splitNN (c :: (a' ++ s)) = _
      rw [hrest, splitNN, if_neg (fun hand => hc hand.1), ← hrest, ih]
      simp [consPart]

/-- A separator-free string splits into itself alone. -/
lemma splitNN_no_nl (b : List Char) (hb : '\n' ∉ b) : splitNN b = [b] := by
  have := splitNN_append b hb [] [] [] (by simp [splitNN])
  simpa using this

/-- Splitting two separator-free paragraphs joined by a blank line. -/
lemma splitNN_two (a b : List Char) (ha : '\n' ∉ a) (hb : '\n' ∉ b) :
    splitNN (a ++ nn ++ b) = [a, b] := by
  have hnb : splitNN (nn ++ b) = [] :: [b] := by
    show splitNN ('\n' :: '\n' :: b) = _
    rw [splitNN, if_pos ⟨rfl, rfl⟩, splitNN_no_nl b hb]
  have := splitNN_append a ha (nn ++ b) [] [b] hnb
  rw [List.append_assoc]
  simpa using this

/-- The packing loop on exactly two parts that do not fit one chunk: each
part is flushed as its own chunk with the separator re-appended. -/
lemma packChunks_pair (p1 p2 : List Char) (hlen : 3996 ≤ p1.length + p2.length)
    (h1 : isBlank p1 = false) (h2 : isBlank p2 = false) :
    packChunks [p1, p2] [] [] = [p1 ++ nn, p2 ++ nn] := by
  have step1 : packChunks [p1, p2] [] [] = packChunks [p2] (p1 ++ nn) [] := by
    rw [packChunks]
    by_cases hc : ([] : List Char).length + p1.length + 2 < MAX_LENGTH
    · rw [if_pos hc]; simp
    · rw [if_neg hc]; simp [isBlank]
  have hcond : ¬ ((p1 ++ nn).length + p2.length + 2 < MAX_LENGTH) := by
    simp only [List.length_append, nn, MAX_LENGTH]
    simp
    omega
  have hb1 : isBlank (p1 ++ nn) = false := by
    simp only [isBlank] at h1 ⊢
    rw [List.all_append, h1, Bool.false_and]
  have hb2 : isBlank (p2 ++ nn) = false := by
    simp only [isBlank] at h2 ⊢
    rw [List.all_append, h2, Bool.false_and]
  rw [step1, packChunks, if_neg hcond, hb1]
  rw [packChunks, hb2]
  simp

/-- Every chunk the packing loop emits stays within `MAX_LENGTH + 2`,
provided every remaining part is within `MAX_LENGTH` and the buffer and
already-emitted chunks are within `MAX_LENGTH + 2`. -/
lemma packChunks_bound (ps : List (List Char)) (cur : List Char)
    (acc : List (List Char))
    (hps : ∀ p ∈ ps, p.length ≤ MAX_LENGTH)
    (hcur : cur.length ≤ MAX_LENGTH + 2)
    (hacc : ∀ s ∈ acc, s.length ≤ MAX_LENGTH + 2) :
    ∀ seg ∈ packChunks ps cur acc, seg.length ≤ MAX_LENGTH + 2 := by
  match ps with
  | [] =>
    intro seg hseg
    rw [packChunks] at hseg
    by_cases hb : isBlank cur
    · rw [if_pos hb] at hseg; exact hacc seg hseg
    · rw [if_neg hb] at hseg
      rcases List.mem_append.mp hseg with hm | hm
      · exact hacc seg hm
      · simp at hm; subst hm; exact hcur
  | p :: ps' =>
    intro seg hseg
    have hp : p.length ≤ MAX_LENGTH := hps p (List.mem_cons_self p ps')
    have hps' : ∀ q ∈ ps', q.length ≤ MAX_LENGTH := fun q hq =>
      hps q (List.mem_cons_of_mem p hq)
    rw [packChunks] at hseg
    by_cases hc : cur.length + p.length + 2 < MAX_LENGTH
    · rw [if_pos hc] at hseg
      refine packChunks_bound ps' (cur ++ p ++ nn) acc hps' ?_ hacc seg hseg
      simp only [List.length_append, nn]
      simp
      omega
    · rw [if_neg hc] at hseg
      refine packChunks_bound ps' (p ++ nn) _ hps' ?_ ?_ seg hseg
      · simp only [List.length_append, nn]
        simp
        omega
      · intro s hs
        by_cases hb : isBlank cur
        · rw [if_pos hb] at hs; exact hacc s hs
        · rw [if_neg hb] at hs
          rcases List.mem_append.mp hs with hm | hm
          · exact hacc s hm
          · simp at hm; subst hm; exact hcur

/-- The aggregation loop over the two target calendars is the concatenation of
their two contributions, in the fixed calendar order. -/
lemma aggEvents_eq (B : Backend) (s e : List Char) :
    aggEvents B s e =
      okItems (B.list (rangeReq primaryCal s e)) ++
        okItems (B.list (rangeReq holidayCal s e)) := by
  simp [aggEvents, target_calendars]

/-- The sanitizing loop concatenates exactly the textual fragments, in
order. -/
lemma foldl_fragAppend (l : List Fragment) (acc : List Char) :
    l.foldl fragAppend acc = acc ++ concatAll (l.filterMap textOf) := by
  match l with
  | [] => simp [concatAll]
  | f :: fs =>
    rw [List.foldl_cons, foldl_fragAppend fs]
    cases f with
    | fstr s => simp [fragAppend, textOf, concatAll]
    | fdict o => cases o <;> simp [fragAppend, textOf, concatAll]
    | fother => simp [fragAppend, textOf, concatAll]

/-- Two suffixes of the same log with equal lengths coincide. -/
lemma suffix_eq_of_length (w₁ w₂ l : List Turn) (h1 : w₁ <:+ l) (h2 : w₂ <:+ l)
    (hl : w₁.length = w₂.length) : w₁ = w₂ := by
  obtain ⟨t1, e1⟩ := h1
  obtain ⟨t2, e2⟩ := h2
  have he : t1 ++ w₁ = t2 ++ w₂ := e1.trans e2.symm
  have hlen : t1.length = t2.length := by
    have := congrArg List.length he
    simp at this
    omega
  exact List.append_inj_right he hlen

/-- A list with a nonempty left part is nonempty. -/
lemma left_ne_nil_append {x y : List Char} (hx : x ≠ []) : x ++ y ≠ [] := by
  intro h
  exact hx (List.append_eq_nil.mp h).1

/- ================= Claim theorems ================= -/

/-- Claim C1: for every session, the visible window returned by the history
read (`WindowedSQLChatMessageHistory.messages`) is exactly the
chronologically-latest suffix of the session's full persisted turn log, of
length `min K (total turns)` with `K = 5`: its length is that minimum, it is
a suffix of the full log (so it never omits a turn newer than one it
contains and never holds more than `K` turns), and it is the unique such
suffix. -/
theorem C1_visible_window (log : List Turn) :
    (windowedMessages log).length = min K log.length ∧
    windowedMessages log <:+ log ∧
    (∀ w : List Turn, w <:+ log → w.length = min K log.length →
      w = windowedMessages log) := by
  refine ⟨?_, List.drop_suffix _ _, ?_⟩
  · rw [windowedMessages, List.length_drop]
    omega
  · intro w hw hlen
    refine suffix_eq_of_length w (windowedMessages log) log hw
      (List.drop_suffix _ _) ?_
    rw [hlen, windowedMessages, List.length_drop]
    omega

/-- Witness for C1 on a concrete seven-turn log: the last five turns form the
visible window. -/
theorem C1_visible_window_witness :
    demoWin.length = min K demoLog.length ∧ demoWin = windowedMessages demoLog := by
  have h := (C1_visible_window demoLog).2.2 demoWin
    ⟨[demoTurn '1', demoTurn '2'], rfl⟩ (by decide)
  exact ⟨by decide, h⟩

/-- Claim C2: for every incoming text message whose sender identity differs
from the single allowed identity, `handle_message` performs exactly the guard
block: no tool is invoked and no turn is appended to any history, exactly one
denial-reply attempt to the sender's chat and exactly one alert attempt to
the allowed identity are made (both attempts occur whatever the delivery
outcomes, so a failure of either does not prevent the other), and processing
stops there. -/
theorem C2_access_guard (allowedId userId chatId : List Char) (env : TurnEnv)
    (h : userId ≠ allowedId) :
    handle_message allowedId userId chatId env = guardActions chatId allowedId env ∧
    (handle_message allowedId userId chatId env).countP isDenialAttempt = 1 ∧
    (handle_message allowedId userId chatId env).countP isAlertAttempt = 1 ∧
    (handle_message allowedId userId chatId env).countP isToolCall = 0 ∧
    (handle_message allowedId userId chatId env).countP isHistoryAppend = 0 ∧
    BotAction.denialAttempt chatId env.denialOk ∈
      handle_message allowedId userId chatId env ∧
    BotAction.alertAttempt allowedId env.alertOk ∈
      handle_message allowedId userId chatId env := by
  have he : handle_message allowedId userId chatId env =
      guardActions chatId allowedId env := by
    rw [handle_message, if_pos h]
  rw [he]
  refine ⟨rfl, ?_⟩
  obtain ⟨d, a, tr⟩ := env
  cases d <;> cases a <;>
    simp [guardActions, isDenialAttempt, isAlertAttempt, isToolCall,
      isHistoryAppend, List.countP_cons]

/-- Witness for C2: a concrete non-allowed sender (id 999 against allowed id
42) with the denial send failing and the alert send succeeding. -/
theorem C2_access_guard_witness :
    (("999").toList ≠ ("42").toList) ∧
    (handle_message (("42").toList) (("999").toList) (("999").toList)
        { denialOk := false, alertOk := true,
          agentActions := [BotAction.toolCall] }).countP isDenialAttempt = 1 ∧
    (handle_message (("42").toList) (("999").toList) (("999").toList)
        { denialOk := false, alertOk := true,
          agentActions := [BotAction.toolCall] }).countP isAlertAttempt = 1 ∧
    (handle_message (("42").toList) (("999").toList) (("999").toList)
        { denialOk := false, alertOk := true,
          agentActions := [BotAction.toolCall] }).countP isToolCall = 0 := by
  have h : ("999").toList ≠ ("42").toList := by decide
  have hc := C2_access_guard (("42").toList) (("999").toList) (("999").toList)
    { denialOk := false, alertOk := true, agentActions := [BotAction.toolCall] } h
  exact ⟨h, hc.2.1, hc.2.2.1, hc.2.2.2.1⟩

/-- Claim C3 is false as stated: `c3text` consists of two paragraphs of
length exactly `MAX_LENGTH = 4000` (each at most the transport limit), yet
the chunker emits segments of length 4002, because each flushed chunk
carries a re-appended `"\n\n"`. -/
theorem C3_counterexample :
    (∀ p ∈ splitNN c3text, p.length ≤ MAX_LENGTH) ∧
    ¬ (∀ seg ∈ chunk c3text, seg.length ≤ MAX_LENGTH) := by
  have hnl : '\n' ∉ para4000 := by
    intro hm
    rw [para4000, List.mem_replicate] at hm
    exact absurd hm.2 (by decide)
  have hlen : para4000.length = 4000 := by
    rw [para4000, List.length_replicate]
  have hsplit : splitNN c3text = [para4000, para4000] :=
    splitNN_two para4000 para4000 hnl hnl
  have hblank : isBlank para4000 = false := by decide
  have htotal : c3text.length = 8002 := by
    simp [c3text, nn, hlen]
  have hchunk : chunk c3text = [para4000 ++ nn, para4000 ++ nn] := by
    rw [chunk, if_neg (by rw [htotal]; decide), hsplit]
    exact packChunks_pair para4000 para4000 (by rw [hlen]; omega) hblank hblank
  constructor
  · intro p hp
    rw [hsplit] at hp
    have hpe : p = para4000 := by
      rcases List.mem_cons.mp hp with h | h
      · exact h
      · rcases List.mem_cons.mp h with h2 | h2
        · exact h2
        · exact absurd h2 (List.not_mem_nil p)
    rw [hpe, hlen]
    decide
  · intro hall
    have hseg := hall (para4000 ++ nn) (by rw [hchunk]; exact List.mem_cons_self _ _)
    rw [List.length_append, hlen] at hseg
    revert hseg
    decide

/-- Claim C3 (amended): for every final-answer text in which every paragraph
has length at most the transport limit `MAX_LENGTH = 4000`, every segment
produced by the output chunker has length at most `MAX_LENGTH + 2 = 4002`
(the limit plus the two-character separator the loop re-appends to every
flushed chunk). -/
theorem C3_segment_bound (text : List Char)
    (h : ∀ p ∈ splitNN text, p.length ≤ MAX_LENGTH) :
    ∀ seg ∈ chunk text, seg.length ≤ MAX_LENGTH + 2 := by
  intro seg hseg
  rw [chunk] at hseg
  by_cases hl : text.length ≤ MAX_LENGTH
  · rw [if_pos hl] at hseg
    simp at hseg
    rw [hseg]
    omega
  · rw [if_neg hl] at hseg
    exact packChunks_bound (splitNN text) [] [] h (by simp) (by simp) seg hseg

/-- Witness for the amended C3 on a concrete short text. -/
theorem C3_segment_bound_witness :
    (∀ p ∈ splitNN (("hi").toList), p.length ≤ MAX_LENGTH) ∧
    (∀ seg ∈ chunk (("hi").toList), seg.length ≤ MAX_LENGTH + 2) :=
  ⟨by decide, C3_segment_bound (("hi").toList) (by decide)⟩

/-- Claim C4 is false as stated: `c4text` splits into exactly two paragraphs
(the empty one and a 3999-character one), each under the 4000 limit and
jointly exceeding it, yet the chunker produces one single segment — the
empty paragraph's chunk is discarded by the `strip()` guard. -/
theorem C4_counterexample :
    splitNN c4text = [[], para3999] ∧
    ([] : List Char).length < MAX_LENGTH ∧
    para3999.length < MAX_LENGTH ∧
    MAX_LENGTH < c4text.length ∧
    chunk c4text = [para3999 ++ nn] ∧
    (chunk c4text).length ≠ 2 := by
  have hnl : '\n' ∉ para3999 := by
    intro hm
    rw [para3999, List.mem_replicate] at hm
    exact absurd hm.2 (by decide)
  have hlen : para3999.length = 3999 := by
    rw [para3999, List.length_replicate]
  have hsplit : splitNN c4text = [[], para3999] := by
    show splitNN ('\n' :: '\n' :: para3999) = _
    rw [splitNN, if_pos ⟨rfl, rfl⟩, splitNN_no_nl para3999 hnl]
  have htotal : c4text.length = 4001 := by
    simp [c4text, nn, hlen]
  have hblank : isBlank para3999 = false := by decide
  have hchunk : chunk c4text = [para3999 ++ nn] := by
    rw [chunk, if_neg (by rw [htotal]; decide), hsplit]
    rw [packChunks, if_pos (by decide)]
    have hcond : ¬ ((([] : List Char) ++ [] ++ nn).length + para3999.length + 2 <
        MAX_LENGTH) := by
      simp [nn, hlen, MAX_LENGTH]
    rw [packChunks, if_neg hcond]
    have hbnn : isBlank (([] : List Char) ++ [] ++ nn) = true := by decide
    rw [hbnn]
    have hbp : isBlank (para3999 ++ nn) = false := by
      simp only [isBlank] at hblank ⊢
      rw [List.all_append, hblank, Bool.false_and]
    rw [packChunks, if_pos rfl, hbp]
    simp
  refine ⟨hsplit, by decide, by rw [hlen]; decide, by rw [htotal]; decide,
    hchunk, by rw [hchunk]; decide⟩

/-- Claim C4 (amended): the chunker returns any text of length at most the
limit as a single segment equal to the input; and for a text of exactly two
paragraphs, each under the limit, jointly exceeding it, and neither entirely
whitespace, it produces exactly two segments, each one whole paragraph with
the separator re-appended, whose in-order concatenation is the original text
plus a trailing `"\n\n"`. -/
theorem C4_chunk_shapes :
    (∀ text : List Char, text.length ≤ MAX_LENGTH → chunk text = [text]) ∧
    (∀ text p1 p2 : List Char,
      splitNN text = [p1, p2] →
      p1.length < MAX_LENGTH → p2.length < MAX_LENGTH →
      MAX_LENGTH < text.length →
      isBlank p1 = false → isBlank p2 = false →
      chunk text = [p1 ++ nn, p2 ++ nn] ∧
      (p1 ++ nn) ++ (p2 ++ nn) = text ++ nn) := by
  constructor
  · intro text h
    rw [chunk, if_pos h]
  · intro text p1 p2 hsplit h1 h2 hlen hb1 hb2
    have htext : text = p1 ++ nn ++ p2 := by
      have hj := joinNN_splitNN text
      rw [hsplit] at hj
      simp only [joinNN] at hj
      exact hj.symm
    have hsum : text.length = p1.length + 2 + p2.length := by
      rw [htext]
      simp [nn]
      omega
    have hM : MAX_LENGTH = 4000 := rfl
    refine ⟨?_, ?_⟩
    · rw [chunk, if_neg (by omega), hsplit]
      exact packChunks_pair p1 p2 (by omega) hb1 hb2
    · rw [htext]
      simp [List.append_assoc]

/-- Witness for the amended C4: a 2000-character and a 2001-character
paragraph, jointly 4003 characters with the separator, are split into exactly
the two paragraph chunks. -/
theorem C4_chunk_shapes_witness :
    chunk (("ok").toList) = [("ok").toList] ∧
    chunk c4wtext = [w1 ++ nn, w2 ++ nn] := by
  have hnl1 : '\n' ∉ w1 := by
    intro hm
    rw [w1, List.mem_replicate] at hm
    exact absurd hm.2 (by decide)
  have hnl2 : '\n' ∉ w2 := by
    intro hm
    rw [w2, List.mem_replicate] at hm
    exact absurd hm.2 (by decide)
  have hsplit : splitNN c4wtext = [w1, w2] := splitNN_two w1 w2 hnl1 hnl2
  have hl1 : w1.length = 2000 := by rw [w1, List.length_replicate]
  have hl2 : w2.length = 2001 := by rw [w2, List.length_replicate]
  have htot : c4wtext.length = 4003 := by simp [c4wtext, nn, hl1, hl2]
  refine ⟨(C4_chunk_shapes).1 (("ok").toList) (by decide), ?_⟩
  exact ((C4_chunk_shapes).2 c4wtext w1 w2 hsplit (by rw [hl1]; decide)
    (by rw [hl2]; decide) (by rw [htot]; decide) (by decide) (by decide)).1

/-- `B5`'s answer for the primary calendar. -/
lemma B5_primary (s e : List Char) :
    B5.list (rangeReq primaryCal s e) = Except.ok [evLate] := rfl

/-- `B5`'s answer for the holiday calendar. -/
lemma B5_holiday (s e : List Char) :
    B5.list (rangeReq holidayCal s e) = Except.ok [evEarly] := rfl

/-- Claim C5 is false as stated: with backend `B5`, each target calendar's own
contribution is sorted by start time, yet the aggregated formatted list puts
the primary calendar's 2025-01-02 event before the holiday calendar's
2025-01-01 event — the aggregate is ordered per calendar, not across the
whole aggregate. -/
theorem C5_counterexample :
    sortedByStartB (okItems (B5.list (rangeReq primaryCal d1 d2))) = true ∧
    sortedByStartB (okItems (B5.list (rangeReq holidayCal d1 d2))) = true ∧
    aggEvents B5 d1 d2 = [evLate, evEarly] ∧
    sortedByStartB (aggEvents B5 d1 d2) = false := by
  have hagg : aggEvents B5 d1 d2 = [evLate, evEarly] := by
    rw [aggEvents_eq, B5_primary, B5_holiday]
    rfl
  refine ⟨?_, ?_, hagg, ?_⟩
  · rw [B5_primary]; rfl
  · rw [B5_holiday]; rfl
  · rw [hagg]; decide

/-- Claim C5 (amended): the aggregate of `get_all_schedules` is the
concatenation of the target calendars' contributions in the fixed calendar
order (primary first, holiday second); when the backend returns each
calendar's items sorted by start time, each contribution is sorted within
itself, but the aggregate is not re-sorted across calendars. -/
theorem C5_aggregate_order (B : Backend) (s e : List Char)
    (h1 : sortedByStartB (okItems (B.list (rangeReq primaryCal s e))) = true)
    (h2 : sortedByStartB (okItems (B.list (rangeReq holidayCal s e))) = true) :
    aggEvents B s e =
      okItems (B.list (rangeReq primaryCal s e)) ++
        okItems (B.list (rangeReq holidayCal s e)) ∧
    (∃ l1 l2, aggEvents B s e = l1 ++ l2 ∧
      sortedByStartB l1 = true ∧ sortedByStartB l2 = true) :=
  ⟨aggEvents_eq B s e, _, _, aggEvents_eq B s e, h1, h2⟩

/-- Witness for the amended C5 on backend `B5`. -/
theorem C5_aggregate_order_witness :
    ∃ l1 l2, aggEvents B5 d1 d2 = l1 ++ l2 ∧
      sortedByStartB l1 = true ∧ sortedByStartB l2 = true := by
  have h1 : sortedByStartB (okItems (B5.list (rangeReq primaryCal d1 d2))) = true := by
    rw [B5_primary]; rfl
  have h2 : sortedByStartB (okItems (B5.list (rangeReq holidayCal d1 d2))) = true := by
    rw [B5_holiday]; rfl
  exact (C5_aggregate_order B5 d1 d2 h1 h2).2

/-- Claim C6 is false as stated: backend `B50` honours the per-call
`maxResults` contract, yet the aggregate of one `get_all_schedules`
invocation holds 100 events (50 from each target calendar), exceeding 50. -/
theorem C6_counterexample :
    apiCap B50 ∧
    (aggEvents B50 d1 d2).length = 100 ∧
    ¬ ((aggEvents B50 d1 d2).length ≤ 50) := by
  have hcap : apiCap B50 := by
    intro req
    show (okItems (Except.ok (List.replicate req.maxResults evEarly))).length ≤ _
    rw [okItems, List.length_replicate]
  have hagg : (aggEvents B50 d1 d2).length = 100 := by
    rw [aggEvents_eq]
    show (okItems (Except.ok (List.replicate (rangeReq primaryCal d1 d2).maxResults evEarly)) ++
      okItems (Except.ok (List.replicate (rangeReq holidayCal d1 d2).maxResults evEarly))).length = 100
    rw [okItems, okItems, List.length_append, List.length_replicate,
      List.length_replicate]
    rfl
  exact ⟨hcap, hagg, by rw [hagg]; decide⟩

/-- Claim C6 (amended): under the per-call `maxResults` contract, one
invocation of `get_all_schedules` aggregates at most 50 events per target
calendar, hence at most 100 events across the two target calendars. -/
theorem C6_aggregate_cap (B : Backend) (s e : List Char) (hcap : apiCap B) :
    (aggEvents B s e).length ≤ 100 := by
  have h1 := hcap (rangeReq primaryCal s e)
  have h2 := hcap (rangeReq holidayCal s e)
  have hm1 : (rangeReq primaryCal s e).maxResults = 50 := rfl
  have hm2 : (rangeReq holidayCal s e).maxResults = 50 := rfl
  rw [hm1] at h1
  rw [hm2] at h2
  rw [aggEvents_eq, List.length_append]
  omega

/-- Witness for the amended C6 on backend `B50`. -/
theorem C6_aggregate_cap_witness :
    apiCap B50 ∧ (aggEvents B50 d1 d2).length ≤ 100 := by
  have hcap : apiCap B50 := by
    intro req
    show (okItems (Except.ok (List.replicate req.maxResults evEarly))).length ≤ _
    rw [okItems, List.length_replicate]
  exact ⟨hcap, C6_aggregate_cap B50 d1 d2 hcap⟩

/-- Claim C7: when the match set is empty, `get_id_of_schedules` returns the
non-empty no-match sentinel containing the keyword, and `get_all_schedules`
returns the non-empty no-events sentinel containing both dates; neither
returns an empty value. -/
theorem C7_empty_sentinels (B : Backend) (kw s e : List Char)
    (hauth : B.auth = Except.ok ())
    (hkw : B.list (kwReq kw) = Except.ok [])
    (hrange : aggEvents B s e = []) :
    (get_id_of_schedules B kw = noMatchMsg kw ∧
     get_id_of_schedules B kw ≠ [] ∧
     (∃ x y, get_id_of_schedules B kw = x ++ kw ++ y)) ∧
    (get_all_schedules B s e = noRangeMsg s e ∧
     get_all_schedules B s e ≠ [] ∧
     (∃ x y, get_all_schedules B s e = x ++ s ++ y) ∧
     (∃ x y, get_all_schedules B s e = x ++ e ++ y)) := by
  have hid : get_id_of_schedules B kw = noMatchMsg kw := by
    rw [get_id_of_schedules, hauth, hkw]
    simp
  have hall : get_all_schedules B s e = noRangeMsg s e := by
    rw [get_all_schedules, hauth]
    simp only []
    rw [hrange, get_all_body, if_pos rfl]
  refine ⟨⟨hid, ?_, ?_⟩, hall, ?_, ?_, ?_⟩
  · rw [hid, noMatchMsg]
    simp only [List.append_assoc]
    exact left_ne_nil_append (by decide)
  · refine ⟨("No events found matching the keyword: ").toList ++ [squote],
      [squote, '.'], ?_⟩
    rw [hid, noMatchMsg]
  · rw [hall, noRangeMsg]
    simp only [List.append_assoc]
    exact left_ne_nil_append (by decide)
  · refine ⟨("No events scheduled from ").toList,
      (" to ").toList ++ e ++ (".").toList, ?_⟩
    rw [hall, noRangeMsg]
    simp [List.append_assoc]
  · refine ⟨("No events scheduled from ").toList ++ s ++ (" to ").toList,
      (".").toList, ?_⟩
    rw [hall, noRangeMsg]

/-- Witness for C7 on the empty backend `B0`. -/
theorem C7_empty_sentinels_witness :
    get_id_of_schedules B0 (("Meeting").toList) =
      noMatchMsg (("Meeting").toList) ∧
    get_all_schedules B0 d1 d2 = noRangeMsg d1 d2 := by
  have hrange : aggEvents B0 d1 d2 = [] := by
    rw [aggEvents_eq]
    rfl
  have h := C7_empty_sentinels B0 (("Meeting").toList) d1 d2 rfl rfl hrange
  exact ⟨h.1.1, h.2.1⟩

/-- Claim C8: when one target calendar's call fails and the other succeeds,
`get_all_schedules` still returns normally: the aggregate is exactly the
successful calendar's items, and the formatted reply is the one built from
those items alone (the failing calendar is silently omitted; the operation
never fails as a whole). -/
theorem C8_calendar_failure_skipped (B : Backend) (s e err : List Char)
    (evs : List GEvent) (hauth : B.auth = Except.ok ()) :
    (B.list (rangeReq primaryCal s e) = Except.error err →
     B.list (rangeReq holidayCal s e) = Except.ok evs →
     aggEvents B s e = evs ∧
     get_all_schedules B s e = get_all_body s e evs) ∧
    (B.list (rangeReq primaryCal s e) = Except.ok evs →
     B.list (rangeReq holidayCal s e) = Except.error err →
     aggEvents B s e = evs ∧
     get_all_schedules B s e = get_all_body s e evs) := by
  constructor
  · intro h1 h2
    have hagg : aggEvents B s e = evs := by
      rw [aggEvents_eq, h1, h2, okItems, okItems]
      simp
    refine ⟨hagg, ?_⟩
    rw [get_all_schedules, hauth]
    simp only []
    rw [hagg]
  · intro h1 h2
    have hagg : aggEvents B s e = evs := by
      rw [aggEvents_eq, h1, h2, okItems, okItems]
      simp
    refine ⟨hagg, ?_⟩
    rw [get_all_schedules, hauth]
    simp only []
    rw [hagg]

/-- Witness for C8 on backend `Bfail`, whose primary calendar errors while
the holiday calendar returns one event. -/
theorem C8_calendar_failure_skipped_witness :
    aggEvents Bfail d1 d2 = [evEarly] ∧
    get_all_schedules Bfail d1 d2 = get_all_body d1 d2 [evEarly] := by
  have h1 : Bfail.list (rangeReq primaryCal d1 d2) =
      Except.error (("HttpError 404").toList) := rfl
  have h2 : Bfail.list (rangeReq holidayCal d1 d2) = Except.ok [evEarly] := rfl
  exact (C8_calendar_failure_skipped Bfail d1 d2 (("HttpError 404").toList)
    [evEarly] rfl).1 h1 h2

/-- Claim C9: result normalization returns a non-empty string output as-is,
flattens a non-empty structured list to the in-order concatenation of exactly
its textual fragments (string parts and the `"text"` fields of dict parts),
and substitutes the fixed fallback message when the output field is absent or
empty. -/
theorem C9_normalization (s : List Char) (l : List Fragment) (v : OutVal)
    (hs : s ≠ []) (hl : l ≠ []) (hv : pyLen v = 0) :
    normalizeOutput (some (OutVal.vstr s)) = s ∧
    normalizeOutput (some (OutVal.vlist l)) = concatAll (l.filterMap textOf) ∧
    normalizeOutput none = fallbackMsg ∧
    normalizeOutput (some v) = fallbackMsg := by
  refine ⟨?_, ?_, rfl, ?_⟩
  · rw [normalizeOutput,
      if_pos (show 0 < pyLen (OutVal.vstr s) from List.length_pos.mpr hs)]
  · have hpos : 0 < pyLen (OutVal.vlist l) := List.length_pos.mpr hl
    rw [normalizeOutput, if_pos hpos]
    rw [foldl_fragAppend]
    simp
  · cases v with
    | vstr s2 =>
      simp only [pyLen] at hv
      simp [normalizeOutput, pyLen, hv]
    | vlist l2 =>
      simp only [pyLen] at hv
      simp [normalizeOutput, pyLen, hv]

/-- Witness for C9: a two-character string, a mixed fragment list (string
part, non-textual part, dict with text, dict without text), and an
empty-string output value. -/
theorem C9_normalization_witness :
    normalizeOutput (some (OutVal.vstr (("ok").toList))) = ("ok").toList ∧
    normalizeOutput (some (OutVal.vlist
      [Fragment.fstr (("a").toList), Fragment.fother,
       Fragment.fdict (some (("b").toList)), Fragment.fdict none])) =
      concatAll ([Fragment.fstr (("a").toList), Fragment.fother,
        Fragment.fdict (some (("b").toList)),
        Fragment.fdict none].filterMap textOf) ∧
    normalizeOutput (some (OutVal.vstr [])) = fallbackMsg := by
  have h := C9_normalization (("ok").toList)
    [Fragment.fstr (("a").toList), Fragment.fother,
     Fragment.fdict (some (("b").toList)), Fragment.fdict none]
    (OutVal.vstr []) (by decide) (by simp) rfl
  exact ⟨h.1, h.2.1, h.2.2.2⟩

/-- Claim C10: a non-empty output list whose only fragment is neither a
string nor a dict with a `"text"` field normalizes to the empty string, and
the fallback message is not substituted in that case. -/
theorem C10_empty_answer :
    normalizeOutput (some (OutVal.vlist [Fragment.fother])) = [] ∧
    normalizeOutput (some (OutVal.vlist [Fragment.fother])) ≠ fallbackMsg ∧
    fallbackMsg ≠ [] := by
  refine ⟨rfl, ?_, by decide⟩
  intro h
  have : fallbackMsg = [] := h.symm
  exact absurd this (by decide)
